import Mathlib

/-!
Verification development for the adaptive background-rotation subsystem of
the dove navigation homepage (theme script `themes/default/assets/app.js`).
The script exists in two observed variants, called variant A and variant B
below; both are embedded where they differ.

The embedding is shallow: the mutable module-level state of the script
(`switching`, `queued`, `preloaded`, the two buffer layers, the pending
timers and listeners) becomes an explicit state record, and the
event-driven control flow (calls to `updateBg`, image-load completions,
`transitionend` events, safety-net timer firings, preload-refill
completions) becomes a step function over that record driven by an
explicit event list.  Pure computations (`loadNextWithRetry`'s retry
policy, `analyzeTone`'s luminance formula, `applyTone` / `setTheme` /
`applyBgBlur` DOM and localStorage effects) are translated as Lean
functions.
-/

namespace Dove

/-! ## RetryFallbackResolver: `loadNextWithRetry` (identical in both variants)

The JS source:
```
async function loadNextWithRetry(maxTries){
  let tries = Math.max(1, maxTries||BG_PROVIDERS.length);
  while(tries-- > 0){
    try { const url = nextUrl(); const res = await preloadImage(url); return res; }
    catch(e) { /- try next provider -/ }
  }
  try { return await preloadImage(FALLBACK_BG); }
  catch(e){ throw new Error('All providers failed, fallback failed'); }
}
```
The environment is abstracted by `succ : Nat → Bool` (whether the i-th
provider attempt's `preloadImage` resolves) and `fallbackOk : Bool`
(whether the final `preloadImage(FALLBACK_BG)` resolves). -/

/-- Number of entries of `BG_PROVIDERS` in the source (picsum, unsplash). -/
def BG_PROVIDERS_length : Nat := 2

/-- Outcome of `loadNextWithRetry`: success from the i-th provider attempt,
success from the final fallback attempt, or the thrown
`All providers failed, fallback failed` error. -/
inductive LoadOutcome
  | fromProvider (i : Nat)
  | fromFallback
  | exhausted
deriving DecidableEq

/-- The provider `while(tries-- > 0)` loop: given the remaining try budget
(fuel) and the index of the next attempt, return the index of the first
successful attempt (if any) together with the number of attempts made. -/
def providerLoop (succ : Nat → Bool) : Nat → Nat → Option Nat × Nat
  | 0, _ => (none, 0)
  | fuel + 1, i =>
      if succ i then (some i, 1)
      else
        let r := providerLoop succ fuel (i + 1)
        (r.1, r.2 + 1)

/-- Shallow embedding of `loadNextWithRetry`.  `maxTries = none` models a
call with the argument omitted (`maxTries||BG_PROVIDERS.length` then picks
the provider count; `0` is falsy in JS and does the same).  The second
component counts the total number of `preloadImage` attempts, the final
fallback attempt included. -/
def loadNextWithRetry (succ : Nat → Bool) (fallbackOk : Bool) (maxTries : Option Nat) :
    LoadOutcome × Nat :=
  let tries := max 1 (match maxTries with
    | none => BG_PROVIDERS_length
    | some m => if m = 0 then BG_PROVIDERS_length else m)
  match providerLoop succ tries 0 with
  | (some i, c) => (LoadOutcome.fromProvider i, c)
  | (none, c) =>
      if fallbackOk then (LoadOutcome.fromFallback, c + 1) else (LoadOutcome.exhausted, c + 1)

/-- The `FALLBACK_BG` constant of the source, with `Date.now()` abstracted
as a natural number:
`const FALLBACK_BG = 'https://picsum.photos/1280/1264?random=' + Date.now();`. -/
def FALLBACK_BG (now : Nat) : String :=
  "https://picsum.photos/1280/1264?random=" ++ toString now

/-- The URL passed to `preloadImage` in the budget-exhausted branch of
`loadNextWithRetry` (`return await preloadImage(FALLBACK_BG)`). -/
def exhaustedAttemptUrl (now : Nat) : String := FALLBACK_BG now

/-- Boolean test that a URL string begins with the 21 characters
`https://picsum.photos` (hence is an external https URL of the picsum
provider host, not a local asset path). -/
def startsWithPicsum (s : String) : Bool :=
  s.data.take 21 = "https://picsum.photos".data

/-! ## ToneAnalyzer: `analyzeTone` (variants A and B)

Variant A samples a fixed 32x32 grid; variant B uses 16x16 on mobile
devices and 32x32 otherwise.  Both run per-channel sRGB linearization,
the BT.709 weighted sum, an average over `size*size`, and the 0.6
threshold.  A bitmap is modelled as the list of sampled pixels (the
`getImageData` RGBA walk reads channels at offsets i, i+1, i+2); the
canvas-context / pixel-read failures that make the JS `try` block return
`null` are modelled by the `ctxOk` flag. -/

/-- Tone classification produced by `analyzeTone` ('light' / 'dark'). -/
inductive Tone
  | light
  | dark
deriving DecidableEq

/-- One sampled pixel: the raw 0..255 channel bytes read from the canvas. -/
structure Px where
  r : Nat
  g : Nat
  b : Nat

/-- The per-channel conversion of the source:
`const toLin = (v)=>{ v/=255; return v<=0.04045 ? v/12.92 : Math.pow((v+0.055)/1.055, 2.4); }`. -/
noncomputable def toLin (v : Nat) : ℝ :=
  let x : ℝ := (v : ℝ) / 255
  if x ≤ 0.04045 then x / 12.92 else ((x + 0.055) / 1.055) ^ (2.4 : ℝ)

/-- Per-pixel relative luminance `0.2126*r + 0.7152*g + 0.0722*b` of the source. -/
noncomputable def luminance (p : Px) : ℝ :=
  0.2126 * toLin p.r + 0.7152 * toLin p.g + 0.0722 * toLin p.b

/-- The `sum += L` accumulation loop of `analyzeTone`. -/
noncomputable def lumSum (data : List Px) : ℝ :=
  data.foldl (fun sum p => sum + luminance p) 0

/-- The shared tail of both variants: `const avg = sum / n; return avg > 0.6 ? 'light' : 'dark';`
with `n = size*size`. -/
noncomputable def analyzeToneCore (size : Nat) (data : List Px) : Tone :=
  if lumSum data / ((size * size : Nat) : ℝ) > 0.6 then Tone.light else Tone.dark

/-- Variant A `analyzeTone`: fixed `size = 32`; returns `null` (`none`)
when the canvas context is unavailable or sampling throws. -/
noncomputable def analyzeToneA (ctxOk : Bool) (data : List Px) : Option Tone :=
  if ctxOk then some (analyzeToneCore 32 data) else none

/-- Variant B grid side: `const size = isMobile ? 16 : 32;`. -/
def gridSizeB (isMobile : Bool) : Nat := if isMobile then 16 else 32

/-- Variant B `analyzeTone`: device-dependent grid side, otherwise the same
computation as variant A. -/
noncomputable def analyzeToneB (isMobile : Bool) (ctxOk : Bool) (data : List Px) : Option Tone :=
  if ctxOk then some (analyzeToneCore (gridSizeB isMobile) data) else none

/-- Modelled from the spec's words, for comparison with the source-derived
`analyzeTone`: sRGB piecewise linearization of a normalized channel value
(`v/12.92` at or below 0.04045, else `((v+0.055)/1.055)^2.4`). -/
noncomputable def srgbLinearizeSpec (v : ℝ) : ℝ :=
  if v ≤ 0.04045 then v / 12.92 else ((v + 0.055) / 1.055) ^ (2.4 : ℝ)

/-- Modelled from the spec's words: BT.709 weighted sum of the linearized
channels of one pixel. -/
noncomputable def luminanceSpec (p : Px) : ℝ :=
  0.2126 * srgbLinearizeSpec ((p.r : ℝ) / 255) + 0.7152 * srgbLinearizeSpec ((p.g : ℝ) / 255) +
    0.0722 * srgbLinearizeSpec ((p.b : ℝ) / 255)

/-- Modelled from the spec's words: luminances averaged over the grid. -/
noncomputable def avgLuminanceSpec (size : Nat) (data : List Px) : ℝ :=
  (data.map luminanceSpec).sum / ((size * size : Nat) : ℝ)

/-- Modelled from the spec's words: `light` if the average luminance is
strictly greater than 0.6, `dark` otherwise. -/
noncomputable def classifySpec (size : Nat) (data : List Px) : Tone :=
  if avgLuminanceSpec size data > 0.6 then Tone.light else Tone.dark

/-! ## DOM / localStorage effects: `applyTone`, `setTheme`, `applyBgBlur`

A small record of the document state touched by these functions. -/

/-- The parts of the document and of localStorage written by the tone /
theme / blur functions. -/
structure Dom where
  /-- `localStorage['dove-theme']`. -/
  doveTheme : Option String
  /-- `document.documentElement.classList`. -/
  docClasses : List String
  /-- `document.body.classList`. -/
  bodyClasses : List String
  /-- `document.body.getAttribute('data-img-tone')`. -/
  imgToneAttr : Option String
  /-- CSS variable `--bg-overlay`. -/
  bgOverlay : Option String
  /-- CSS variable `--bg-overlay-light`. -/
  bgOverlayLight : Option String
  /-- CSS variable `--bg-blur`. -/
  bgBlur : Option String
  /-- `localStorage['dove-bg-blur']`. -/
  doveBgBlur : Option String

/-- A document with nothing set yet. -/
def emptyDom : Dom :=
  { doveTheme := none, docClasses := [], bodyClasses := [], imgToneAttr := none,
    bgOverlay := none, bgOverlayLight := none, bgBlur := none, doveBgBlur := none }

/-- Variant A `applyTone`: `if(!tone) return;` then set `data-img-tone` and
the two overlay-intensity CSS variables (0.28/0.16 for light, 0.50/0.22
otherwise).  It does not touch localStorage or the element class lists. -/
def applyToneA (tone : Option String) (d : Dom) : Dom :=
  match tone with
  | none => d
  | some t =>
      { d with imgToneAttr := some t,
               bgOverlay := some (if t = "light" then "0.28" else "0.50"),
               bgOverlayLight := some (if t = "light" then "0.16" else "0.22") }

/-- The `classList.remove('light','dark')` step of variant B `applyTone`. -/
def stripToneClasses (cs : List String) : List String :=
  cs.filter (fun c => if c = "light" then false else if c = "dark" then false else true)

/-- Variant B `applyTone`: removes the `light`/`dark` classes from the
document element, adds the new tone class, and writes the tone into
`localStorage['dove-theme']`.  It does not touch the overlay CSS variables. -/
def applyToneB (tone : String) (d : Dom) : Dom :=
  { d with docClasses := stripToneClasses d.docClasses ++ [tone],
           doveTheme := some tone }

/-- The `classList.remove('theme-auto','theme-light','theme-dark')` step of `setTheme`. -/
def stripBodyThemeClasses (cs : List String) : List String :=
  cs.filter (fun c =>
    if c = "theme-auto" then false
    else if c = "theme-light" then false
    else if c = "theme-dark" then false else true)

/-- The manual theme toggle `setTheme` (same code in both variants): swap the
`theme-*` class on `document.body` and persist the choice under
`localStorage['dove-theme']`. -/
def setThemeB (t : String) (d : Dom) : Dom :=
  { d with bodyClasses := stripBodyThemeClasses d.bodyClasses ++ ["theme-" ++ t],
           doveTheme := some t }

/-- The string actually passed to `applyTone` during a swap:
`applyTone(tone||'dark')` where `tone` is `analyzeTone`'s result. -/
def toneStr : Tone → String
  | Tone.light => "light"
  | Tone.dark => "dark"

/-- `tone||'dark'`: the analyzer result defaulted to `'dark'`. -/
def toneOrDark (analysis : Option Tone) : String := toneStr (analysis.getD Tone.dark)

/-- The tone-application step of variant A `crossfadeTo`:
`const tone = analyzeTone(img); applyTone(tone||'dark');`. -/
def crossfadeToneA (analysis : Option Tone) (d : Dom) : Dom :=
  applyToneA (some (toneOrDark analysis)) d

/-- The tone-application step of variant B `crossfadeTo` (same call shape,
but through variant B's `applyTone`). -/
def crossfadeToneB (analysis : Option Tone) (d : Dom) : Dom :=
  applyToneB (toneOrDark analysis) d

/-- Device class as produced by the userAgent sniffing helpers of variant B. -/
inductive DeviceClass
  | mobile
  | tablet
  | desktop
deriving DecidableEq

/-- The `applyBgBlur` that is effective at runtime: variant A's only
definition, and in variant B the second `function applyBgBlur` declaration,
which under JS function-declaration hoisting shadows the earlier clamped
one.  `const n = Math.max(0, Number(px)||0);` then set `--bg-blur` to
`${n}px` and persist `String(n)`. -/
def applyBgBlurEffective (px : Int) (d : Dom) : Dom :=
  let n := max 0 px
  { d with bgBlur := some (toString n ++ "px"), doveBgBlur := some (toString n) }

/-- The earlier, shadowed `applyBgBlur` definition of variant B: clamp to at
least 0, then to at most 6 on mobile and at most 10 on tablet, before
applying and persisting. -/
def applyBgBlurClamped (dev : DeviceClass) (px : Int) (d : Dom) : Dom :=
  let b0 := max 0 px
  let blurValue :=
    match dev with
    | DeviceClass.mobile => min b0 6
    | DeviceClass.tablet => min b0 10
    | DeviceClass.desktop => b0
  { d with bgBlur := some (toString blurValue ++ "px"),
           doveBgBlur := some (toString blurValue) }

/-! ## TransitionCoordinator, variant A

State of the module-level variables of the script plus bookkeeping for the
transitionend listeners and safety-net timers armed by `crossfadeTo`.
Every crossfade ever started is kept (indexed by a serial id) so that the
environment events "the CSS transition of crossfade t ended" and "the
safety timeout armed by crossfade t fired" can be expressed. -/

/-- Bookkeeping for one started crossfade: whether its `transitionend`
listener is still attached, whether its `setTimeout` safety net is still
pending, whether its `onDone` has run, and whether its CSS transition has
ended. -/
structure TrSt where
  listenerOn : Bool
  timerOn : Bool
  done : Bool
  animEnded : Bool
deriving DecidableEq

/-- The module-level state of variant A: `switching`, `queued`,
`preloaded` (as a Boolean: a preloaded result is present), the number of
`updateBg` invocations currently suspended on `await loadNextWithRetry()`,
the number of pending `startProactivePreload` loads, counters for the
hard-fallback displays, for `updateBg` invocations that passed the
`switching` guard, and for the buffer-role swap assignments in `onDone`,
and the table of started crossfades. -/
structure StA where
  switching : Bool
  queued : Bool
  preloadedSome : Bool
  loading : Nat
  refillPending : Nat
  fallbackShows : Nat
  swapBegins : Nat
  roleSwaps : Nat
  trans : Nat → Option TrSt
  nextId : Nat

/-- `startProactivePreload()`: `if(preloaded) return;` else start an
asynchronous `loadNextWithRetry` whose completion is a later event. -/
def startRefill (s : StA) : StA :=
  if s.preloadedSome then s else { s with refillPending := s.refillPending + 1 }

/-- The effect of `crossfadeTo` on the coordinator state: a new crossfade
with an attached `transitionend` listener and a pending safety timer. -/
def startCrossfade (s : StA) : StA :=
  { s with
    trans := fun u => if u = s.nextId then some ⟨true, true, false, false⟩ else s.trans u,
    nextId := s.nextId + 1 }

/-- `updateBg()` up to its first suspension point: if `switching` then set
`queued` and return; else set `switching`, and either consume `preloaded`
and run `crossfadeTo` at once, or suspend on `await loadNextWithRetry()`. -/
def updateBg (s : StA) : StA :=
  if s.switching then { s with queued := true }
  else
    let s1 := { s with switching := true, swapBegins := s.swapBegins + 1 }
    if s1.preloadedSome then startCrossfade { s1 with preloadedSome := false }
    else { s1 with loading := s1.loading + 1 }

/-- The `removeEventListener` plus role-swap bookkeeping of `onDone` on the
crossfade it belongs to. -/
def markDone (s : StA) (t : Nat) : StA :=
  { s with
    trans := fun u =>
      if u = t then (s.trans u).map (fun x => { x with listenerOn := false, done := true })
      else s.trans u }

/-- The `onDone` closure of crossfade `t` (variant A):
remove the listener, swap the buffer roles, clear `switching`, run the
queued `updateBg` if any, clear `preloaded`, start the proactive refill. -/
def onDone (t : Nat) (s : StA) : StA :=
  let s1 := markDone s t
  let s2 := { s1 with switching := false, roleSwaps := s1.roleSwaps + 1 }
  let s3 := if s2.queued then updateBg { s2 with queued := false } else s2
  startRefill { s3 with preloadedSome := false }

/-- Environment events driving variant A: an `updateBg` invocation
(scheduler tick or manual trigger), resolution or rejection of the load a
suspended `updateBg` awaits, the end of crossfade `t`'s CSS transition,
the firing of crossfade `t`'s safety timer, and resolution or rejection of
a pending proactive preload. -/
inductive EvA
  | reqSwap
  | loadOk
  | loadFail
  | animEnd (t : Nat)
  | timerFire (t : Nat)
  | refillOk
  | refillFail

/-- One step of variant A.  `loadOk` resumes a suspended `updateBg` after
the `await`: `preloaded = null; crossfadeTo(res.img, res.url);`.
`loadFail` is the catch block: clear `switching`, show the fallback image
directly on the visible layer (no crossfade), start a refill.  `animEnd t`
fires crossfade `t`'s `transitionend` (at most once), running `onDone` if
the listener is still attached.  `timerFire t` is the safety
`setTimeout(()=>{ if(switching){ onDone(); } }, 700)`: it consults the
shared `switching` flag, not the identity of the current crossfade. -/
def stepA (s : StA) : EvA → StA
  | EvA.reqSwap => updateBg s
  | EvA.loadOk =>
      if s.loading = 0 then s
      else startCrossfade { s with loading := s.loading - 1, preloadedSome := false }
  | EvA.loadFail =>
      if s.loading = 0 then s
      else
        startRefill
          { s with loading := s.loading - 1, switching := false,
                   fallbackShows := s.fallbackShows + 1 }
  | EvA.animEnd t =>
      match s.trans t with
      | none => s
      | some tr =>
          if tr.animEnded then s
          else
            let s1 :=
              { s with trans := fun u => if u = t then some { tr with animEnded := true } else s.trans u }
            if tr.listenerOn then onDone t s1 else s1
  | EvA.timerFire t =>
      match s.trans t with
      | none => s
      | some tr =>
          if tr.timerOn then
            let s1 :=
              { s with trans := fun u => if u = t then some { tr with timerOn := false } else s.trans u }
            if s1.switching then onDone t s1 else s1
          else s
  | EvA.refillOk =>
      if s.refillPending = 0 then s
      else { s with refillPending := s.refillPending - 1, preloadedSome := true }
  | EvA.refillFail =>
      if s.refillPending = 0 then s
      else { s with refillPending := s.refillPending - 1 }

/-- Run variant A over a list of events. -/
def runA (s : StA) (evs : List EvA) : StA := evs.foldl stepA s

/-- The state right after the module-level declarations of variant A. -/
def initA : StA :=
  { switching := false, queued := false, preloadedSome := false, loading := 0,
    refillPending := 0, fallbackShows := 0, swapBegins := 0, roleSwaps := 0,
    trans := fun _ => none, nextId := 0 }

/-- A crossfade is in flight when it has started and its `onDone` has not run. -/
def undone (o : Option TrSt) : Bool :=
  match o with
  | some tr => !tr.done
  | none => false

/-- Number of crossfades currently in flight. -/
def inflightA (s : StA) : Nat :=
  (List.range s.nextId).countP (fun t => undone (s.trans t))

/-- A safety-timer firing is stale when the `onDone` of its own crossfade
has already run but `switching` is true again (because a newer swap is in
flight): the `if(switching)` guard then re-runs the old `onDone` mid-way
through the newer transition. -/
def staleTimer (s : StA) (e : EvA) : Bool :=
  match e with
  | EvA.timerFire t =>
      (match s.trans t with
       | some tr => tr.timerOn && s.switching && tr.done
       | none => false)
  | _ => false

/-- An event sequence is good when no stale safety-timer firing occurs
along its run. -/
def GoodRun (s : StA) : List EvA → Bool
  | [] => true
  | e :: es => !staleTimer s e && GoodRun (stepA s e) es

/-- The delay of the safety `setTimeout` in variant A's `crossfadeTo`. -/
def safetyNetMsA : Nat := 700

/-! ## TransitionCoordinator, variant B

Variant B never initializes `bgPrimary`/`bgBuffer` (the `ensureBgBuffers()`
calls are commented out as calls to an undefined function, and nothing else
assigns the two variables), so `crossfadeTo` always returns at its
`if(!bgPrimary || !bgBuffer) return;` guard: no listener or safety timer is
ever armed, and the catch block's `if(bgPrimary)` fallback display is never
taken. -/

/-- The module-level state of variant B (no crossfade is ever started, so
no transition table is needed). -/
structure StB where
  switching : Bool
  queued : Bool
  preloadedSome : Bool
  loading : Nat
  refillPending : Nat
  fallbackShows : Nat
  swapBegins : Nat
deriving DecidableEq

/-- Environment events driving variant B. -/
inductive EvB
  | reqSwap
  | loadOk
  | loadFail
  | refillOk
  | refillFail

/-- `startProactivePreload()` of variant B. -/
def startRefillB (s : StB) : StB :=
  if s.preloadedSome then s else { s with refillPending := s.refillPending + 1 }

/-- `updateBg()` of variant B up to its first suspension point; in the
preloaded branch `crossfadeTo` is a no-op (buffer guard), so `switching`
is left set with nothing armed to clear it. -/
def updateBgB (s : StB) : StB :=
  if s.switching then { s with queued := true }
  else
    let s1 := { s with switching := true, swapBegins := s.swapBegins + 1 }
    if s1.preloadedSome then { s1 with preloadedSome := false }
    else { s1 with loading := s1.loading + 1 }

/-- One step of variant B.  `loadOk` resumes the suspended `updateBg`;
`crossfadeTo` no-ops at its buffer guard.  `loadFail` is the catch block:
`switching = false`, but `if(bgPrimary)` is `null` so the fallback image is
never displayed (`fallbackShows` is never incremented), then
`startProactivePreload()`. -/
def stepB (s : StB) : EvB → StB
  | EvB.reqSwap => updateBgB s
  | EvB.loadOk =>
      if s.loading = 0 then s
      else { s with loading := s.loading - 1, preloadedSome := false }
  | EvB.loadFail =>
      if s.loading = 0 then s
      else startRefillB { s with loading := s.loading - 1, switching := false }
  | EvB.refillOk =>
      if s.refillPending = 0 then s
      else { s with refillPending := s.refillPending - 1, preloadedSome := true }
  | EvB.refillFail =>
      if s.refillPending = 0 then s
      else { s with refillPending := s.refillPending - 1 }

/-- Run variant B over a list of events. -/
def runB (s : StB) (evs : List EvB) : StB := evs.foldl stepB s

/-- The state right after the module-level declarations of variant B. -/
def initB : StB :=
  { switching := false, queued := false, preloadedSome := false, loading := 0,
    refillPending := 0, fallbackShows := 0, swapBegins := 0 }

/-- The delay of the safety `setTimeout` in variant B's `crossfadeTo`. -/
def safetyNetMsB : Nat := 800

/-! ## Invariant of the variant A coordinator -/

/-- No crossfade is in flight. -/
def allDoneA (s : StA) : Prop := ∀ t, undone (s.trans t) = false

/-- Exactly one crossfade is in flight. -/
def oneUndoneA (s : StA) : Prop :=
  ∃ t0, t0 < s.nextId ∧ undone (s.trans t0) = true ∧
    ∀ t, t ≠ t0 → undone (s.trans t) = false

/-- The three shapes the variant A coordinator can be in: idle, suspended
on one load, or driving exactly one crossfade. -/
def shapeA (s : StA) : Prop :=
  (s.loading = 0 ∧ s.switching = false ∧ allDoneA s)
  ∨ (s.loading = 1 ∧ s.switching = true ∧ allDoneA s)
  ∨ (s.loading = 0 ∧ s.switching = true ∧ oneUndoneA s)

/-- The coordinator invariant of variant A: crossfade ids are below the
serial counter; a crossfade's listener is attached exactly while its
`onDone` has not run, and an in-flight crossfade still has its safety
timer pending; and the coordinator is in one of the three shapes. -/
def INVA (s : StA) : Prop :=
  (∀ t, s.nextId ≤ t → s.trans t = none)
  ∧ (∀ t tr, s.trans t = some tr →
      tr.listenerOn = !tr.done ∧ (tr.done = false → tr.timerOn = true))
  ∧ shapeA s

/-! ## Helper lemmas -/

theorem countP_range_zero (p : Nat → Bool) :
    ∀ n, (∀ t, t < n → p t = false) → (List.range n).countP p = 0 := by
  intro n
  induction n with
  | zero => intro _; rfl
  | succ m ih =>
      intro h
      rw [List.range_succ, List.countP_append]
      have h1 : (List.range m).countP p = 0 := ih (fun t ht => h t (Nat.lt_succ_of_lt ht))
      have h2 : p m = false := h m (Nat.lt_succ_self m)
      simp [h1, h2, List.countP_cons]

theorem countP_range_one (p : Nat → Bool) :
    ∀ n t0, t0 < n → p t0 = true → (∀ t, t < n → t ≠ t0 → p t = false) →
      (List.range n).countP p = 1 := by
  intro n
  induction n with
  | zero => intro t0 h0; exact absurd h0 (Nat.not_lt_zero t0)
  | succ m ih =>
      intro t0 h0 hp ho
      rw [List.range_succ, List.countP_append]
      by_cases hm : t0 = m
      · subst hm
        have h1 : (List.range t0).countP p = 0 :=
          countP_range_zero p t0 (fun t ht => ho t (Nat.lt_succ_of_lt ht) (Nat.ne_of_lt ht))
        simp [h1, hp, List.countP_cons]
      · have h0' : t0 < m := by omega
        have h1 : (List.range m).countP p = 1 :=
          ih t0 h0' hp (fun t ht hne => ho t (Nat.lt_succ_of_lt ht) hne)
        have h2 : p m = false := ho m (Nat.lt_succ_self m) (fun he => hm he.symm)
        simp [h1, h2, List.countP_cons]

theorem inv_startRefill {s : StA} (h : INVA s) : INVA (startRefill s) := by
  unfold startRefill
  split
  · exact h
  · exact h

theorem inv_startCrossfade {s : StA}
    (h1 : ∀ u, s.nextId ≤ u → s.trans u = none)
    (h2 : ∀ u tr, s.trans u = some tr →
        tr.listenerOn = !tr.done ∧ (tr.done = false → tr.timerOn = true))
    (hl : s.loading = 0) (hsw : s.switching = true) (hall : allDoneA s) :
    INVA (startCrossfade s) := by
  refine ⟨?_, ?_, Or.inr (Or.inr ⟨hl, hsw, s.nextId, ?_, ?_, ?_⟩)⟩
  · intro u hu
    have hu' : s.nextId + 1 ≤ u := hu
    show (if u = s.nextId then some (⟨true, true, false, false⟩ : TrSt) else s.trans u) = none
    rw [if_neg (by omega : ¬ u = s.nextId)]
    exact h1 u (by omega)
  · intro u tr htr
    have htr' : (if u = s.nextId then some (⟨true, true, false, false⟩ : TrSt) else s.trans u)
        = some tr := htr
    by_cases hu : u = s.nextId
    · rw [if_pos hu] at htr'
      injection htr' with he
      subst he
      exact ⟨rfl, fun _ => rfl⟩
    · rw [if_neg hu] at htr'
      exact h2 u tr htr'
  · show s.nextId < s.nextId + 1
    omega
  · show undone (if s.nextId = s.nextId then some (⟨true, true, false, false⟩ : TrSt)
        else s.trans s.nextId) = true
    rw [if_pos rfl]
    rfl
  · intro u hu
    show undone (if u = s.nextId then some (⟨true, true, false, false⟩ : TrSt)
        else s.trans u) = false
    rw [if_neg hu]
    exact hall u

theorem inv_updateBg {s : StA} (h : INVA s) : INVA (updateBg s) := by
  obtain ⟨h1, h2, h3⟩ := h
  unfold updateBg
  simp only []
  split
  · exact ⟨h1, h2, h3⟩
  · rename_i hsw
    have hswf : s.switching = false := by
      cases hb : s.switching
      · rfl
      · exact absurd hb hsw
    have hl0 : s.loading = 0 := by
      rcases h3 with ⟨hl, _, _⟩ | ⟨_, hs, _⟩ | ⟨_, hs, _⟩
      · exact hl
      · rw [hswf] at hs; simp at hs
      · rw [hswf] at hs; simp at hs
    have hall : allDoneA s := by
      rcases h3 with ⟨_, _, ha⟩ | ⟨_, hs, _⟩ | ⟨_, hs, _⟩
      · exact ha
      · rw [hswf] at hs; simp at hs
      · rw [hswf] at hs; simp at hs
    split
    · exact inv_startCrossfade h1 h2 hl0 rfl hall
    · refine ⟨h1, h2, Or.inr (Or.inl ⟨?_, rfl, hall⟩)⟩
      show s.loading + 1 = 1
      rw [hl0]

theorem inv_onDone {t : Nat} {s : StA}
    (h1 : ∀ u, s.nextId ≤ u → s.trans u = none)
    (h2 : ∀ u tr, u ≠ t → s.trans u = some tr →
        tr.listenerOn = !tr.done ∧ (tr.done = false → tr.timerOn = true))
    (hl : s.loading = 0)
    (hall : ∀ u, u ≠ t → undone (s.trans u) = false) :
    INVA (onDone t s) := by
  have hbase : INVA { markDone s t with switching := false, roleSwaps := (markDone s t).roleSwaps + 1 } := by
    refine ⟨?_, ?_, Or.inl ⟨hl, rfl, ?_⟩⟩
    · intro u hu
      show (if u = t then (s.trans u).map (fun x => { x with listenerOn := false, done := true })
          else s.trans u) = none
      have hu' : s.nextId ≤ u := hu
      by_cases hut : u = t
      · rw [if_pos hut, h1 u hu']
        rfl
      · rw [if_neg hut]
        exact h1 u hu'
    · intro u tr htr
      have htr' : (if u = t then
          (s.trans u).map (fun x => { x with listenerOn := false, done := true })
          else s.trans u) = some tr := htr
      by_cases hut : u = t
      · rw [if_pos hut] at htr'
        cases hx : s.trans u with
        | none => rw [hx] at htr'; exact Option.noConfusion htr'
        | some x =>
            rw [hx] at htr'
            injection htr' with he
            subst he
            exact ⟨rfl, fun hc => by simp at hc⟩
      · rw [if_neg hut] at htr'
        exact h2 u tr hut htr'
    · intro u
      show undone (if u = t then
          (s.trans u).map (fun x => { x with listenerOn := false, done := true })
          else s.trans u) = false
      by_cases hut : u = t
      · rw [if_pos hut]
        cases hx : s.trans u with
        | none => rfl
        | some x => rfl
      · rw [if_neg hut]
        exact hall u hut
  unfold onDone
  simp only []
  refine inv_startRefill ?_
  split
  · exact inv_updateBg hbase
  · exact hbase

theorem inv_setTrans {s : StA} {t : Nat} {tr tr' : TrSt}
    (h1 : ∀ u, s.nextId ≤ u → s.trans u = none)
    (h2 : ∀ u x, s.trans u = some x →
        x.listenerOn = !x.done ∧ (x.done = false → x.timerOn = true))
    (h3 : shapeA s)
    (ht : s.trans t = some tr)
    (hdone : tr'.done = tr.done)
    (hwf : tr'.listenerOn = !tr'.done ∧ (tr'.done = false → tr'.timerOn = true)) :
    INVA { s with trans := fun u => if u = t then some tr' else s.trans u } := by
  have htlt : t < s.nextId := by
    by_contra hge
    have h0 := h1 t (by omega)
    rw [h0] at ht
    exact Option.noConfusion ht
  have hpw : ∀ u, undone (if u = t then some tr' else s.trans u) = undone (s.trans u) := by
    intro u
    by_cases hu : u = t
    · subst hu
      rw [if_pos rfl, ht]
      show (!tr'.done) = (!tr.done)
      rw [hdone]
    · rw [if_neg hu]
  refine ⟨?_, ?_, ?_⟩
  · intro u hu
    have hu' : s.nextId ≤ u := hu
    show (if u = t then some tr' else s.trans u) = none
    rw [if_neg (by omega : ¬ u = t)]
    exact h1 u hu'
  · intro u x hx
    have hx' : (if u = t then some tr' else s.trans u) = some x := hx
    by_cases hu : u = t
    · rw [if_pos hu] at hx'
      injection hx' with he
      subst he
      exact hwf
    · rw [if_neg hu] at hx'
      exact h2 u x hx'
  · rcases h3 with ⟨hl, hw, ha⟩ | ⟨hl, hw, ha⟩ | ⟨hl, hw, t0, hlt, hu0, honly⟩
    · exact Or.inl ⟨hl, hw, fun u => (hpw u).trans (ha u)⟩
    · exact Or.inr (Or.inl ⟨hl, hw, fun u => (hpw u).trans (ha u)⟩)
    · exact Or.inr (Or.inr ⟨hl, hw, t0, hlt, (hpw t0).trans hu0,
        fun u hu => (hpw u).trans (honly u hu)⟩)

theorem shape_third {s : StA} {t : Nat} (h3 : shapeA s)
    (hund : undone (s.trans t) = true) :
    s.loading = 0 ∧ s.switching = true ∧ t < s.nextId ∧
      ∀ u, u ≠ t → undone (s.trans u) = false := by
  rcases h3 with ⟨_, _, ha⟩ | ⟨_, _, ha⟩ | ⟨hl0, hw, t0, hlt, hu0, honly⟩
  · have := ha t
    rw [this] at hund
    exact absurd hund (by simp)
  · have := ha t
    rw [this] at hund
    exact absurd hund (by simp)
  · have hte : t = t0 := by
      by_contra hne
      have := honly t hne
      rw [this] at hund
      exact absurd hund (by simp)
    subst hte
    exact ⟨hl0, hw, hlt, honly⟩

theorem stepA_animEnd_none {s : StA} {t : Nat} (ht : s.trans t = none) :
    stepA s (EvA.animEnd t) = s := by
  simp only [stepA, ht]

theorem stepA_animEnd_some {s : StA} {t : Nat} {tr : TrSt} (ht : s.trans t = some tr) :
    stepA s (EvA.animEnd t) =
      if tr.animEnded then s
      else if tr.listenerOn then
        onDone t
          { s with trans := fun u => if u = t then some { tr with animEnded := true } else s.trans u }
      else
        { s with trans := fun u => if u = t then some { tr with animEnded := true } else s.trans u } := by
  simp only [stepA, ht]

theorem stepA_timerFire_none {s : StA} {t : Nat} (ht : s.trans t = none) :
    stepA s (EvA.timerFire t) = s := by
  simp only [stepA, ht]

theorem stepA_timerFire_some {s : StA} {t : Nat} {tr : TrSt} (ht : s.trans t = some tr) :
    stepA s (EvA.timerFire t) =
      if tr.timerOn then
        if s.switching then
          onDone t
            { s with trans := fun u => if u = t then some { tr with timerOn := false } else s.trans u }
        else
          { s with trans := fun u => if u = t then some { tr with timerOn := false } else s.trans u }
      else s := by
  simp only [stepA, ht]

theorem inv_stepA {s : StA} {e : EvA} (h : INVA s) (hg : staleTimer s e = false) :
    INVA (stepA s e) := by
  obtain ⟨h1, h2, h3⟩ := h
  cases e with
  | reqSwap =>
      show INVA (updateBg s)
      exact inv_updateBg ⟨h1, h2, h3⟩
  | loadOk =>
      show INVA (if s.loading = 0 then s
        else startCrossfade { s with loading := s.loading - 1, preloadedSome := false })
      split
      · exact ⟨h1, h2, h3⟩
      · rename_i hl
        have hd : s.loading = 1 ∧ s.switching = true ∧ allDoneA s := by
          rcases h3 with ⟨hl0, _, _⟩ | hd | ⟨hl0, _, _⟩
          · exact absurd hl0 hl
          · exact hd
          · exact absurd hl0 hl
        exact inv_startCrossfade h1 h2 (by show s.loading - 1 = 0; rw [hd.1]) hd.2.1 hd.2.2
  | loadFail =>
      show INVA (if s.loading = 0 then s
        else startRefill { s with loading := s.loading - 1, switching := false, fallbackShows := s.fallbackShows + 1 })
      split
      · exact ⟨h1, h2, h3⟩
      · rename_i hl
        have hd : s.loading = 1 ∧ s.switching = true ∧ allDoneA s := by
          rcases h3 with ⟨hl0, _, _⟩ | hd | ⟨hl0, _, _⟩
          · exact absurd hl0 hl
          · exact hd
          · exact absurd hl0 hl
        refine inv_startRefill ⟨h1, h2, Or.inl ⟨?_, rfl, hd.2.2⟩⟩
        show s.loading - 1 = 0
        rw [hd.1]
  | animEnd t =>
      cases ht : s.trans t with
      | none =>
          rw [stepA_animEnd_none ht]
          exact ⟨h1, h2, h3⟩
      | some tr =>
        rw [stepA_animEnd_some ht]
        split
        · exact ⟨h1, h2, h3⟩
        · split
          · rename_i hlis
            have hdone : tr.done = false := by
              have hld := (h2 t tr ht).1
              rw [hlis] at hld
              cases hd : tr.done
              · rfl
              · rw [hd] at hld; simp at hld
            have hund : undone (s.trans t) = true := by
              rw [ht]
              show (!tr.done) = true
              rw [hdone]
              rfl
            obtain ⟨hl0, _, htlt, honly⟩ := shape_third h3 hund
            refine inv_onDone ?_ ?_ hl0 ?_
            · intro u hu
              have hu' : s.nextId ≤ u := hu
              show (if u = t then some { tr with animEnded := true } else s.trans u) = none
              rw [if_neg (by omega : ¬ u = t)]
              exact h1 u hu'
            · intro u x hu hx
              have hx' : (if u = t then some { tr with animEnded := true } else s.trans u)
                  = some x := hx
              rw [if_neg hu] at hx'
              exact h2 u x hx'
            · intro u hu
              show undone (if u = t then some { tr with animEnded := true } else s.trans u)
                  = false
              rw [if_neg hu]
              exact honly u hu
          · rename_i hlis
            exact inv_setTrans h1 h2 h3 ht rfl ⟨(h2 t tr ht).1, (h2 t tr ht).2⟩
  | timerFire t =>
      cases ht : s.trans t with
      | none =>
          rw [stepA_timerFire_none ht]
          exact ⟨h1, h2, h3⟩
      | some tr =>
        rw [stepA_timerFire_some ht]
        split
        · rename_i hton
          split
          · rename_i hsw1
            have hswtrue : s.switching = true := hsw1
            have hdone : tr.done = false := by
              have hgx : (match s.trans t with
                | some x => x.timerOn && s.switching && x.done
                | none => false) = false := hg
              rw [ht] at hgx
              have hgy : (tr.timerOn && s.switching && tr.done) = false := hgx
              rw [hton, hswtrue] at hgy
              simpa using hgy
            have hund : undone (s.trans t) = true := by
              rw [ht]
              show (!tr.done) = true
              rw [hdone]
              rfl
            obtain ⟨hl0, _, htlt, honly⟩ := shape_third h3 hund
            refine inv_onDone ?_ ?_ hl0 ?_
            · intro u hu
              have hu' : s.nextId ≤ u := hu
              show (if u = t then some { tr with timerOn := false } else s.trans u) = none
              rw [if_neg (by omega : ¬ u = t)]
              exact h1 u hu'
            · intro u x hu hx
              have hx' : (if u = t then some { tr with timerOn := false } else s.trans u)
                  = some x := hx
              rw [if_neg hu] at hx'
              exact h2 u x hx'
            · intro u hu
              show undone (if u = t then some { tr with timerOn := false } else s.trans u)
                  = false
              rw [if_neg hu]
              exact honly u hu
          · rename_i hsw1
            have hswf : s.switching = false := by
              cases hb : s.switching
              · rfl
              · exact absurd hb hsw1
            have hdone : tr.done = true := by
              rcases h3 with ⟨_, _, ha⟩ | ⟨_, hs, _⟩ | ⟨_, hs, _⟩
              · have hx : (!tr.done) = false := by
                  have := ha t
                  rw [ht] at this
                  exact this
                cases hd : tr.done
                · rw [hd] at hx; simp at hx
                · rfl
              · rw [hswf] at hs; simp at hs
              · rw [hswf] at hs; simp at hs
            refine inv_setTrans h1 h2 h3 ht rfl ⟨(h2 t tr ht).1, ?_⟩
            intro hc
            have hc' : tr.done = false := hc
            rw [hdone] at hc'
            simp at hc'
        · exact ⟨h1, h2, h3⟩
  | refillOk =>
      show INVA (if s.refillPending = 0 then s
        else { s with refillPending := s.refillPending - 1, preloadedSome := true })
      split
      · exact ⟨h1, h2, h3⟩
      · exact ⟨h1, h2, h3⟩
  | refillFail =>
      show INVA (if s.refillPending = 0 then s
        else { s with refillPending := s.refillPending - 1 })
      split
      · exact ⟨h1, h2, h3⟩
      · exact ⟨h1, h2, h3⟩

theorem inv_runA : ∀ (evs : List EvA) (s : StA), INVA s → GoodRun s evs = true →
    INVA (runA s evs)
  | [], _, h, _ => h
  | e :: es, s, h, hg => by
      have hg' : (!staleTimer s e && GoodRun (stepA s e) es) = true := hg
      rw [Bool.and_eq_true] at hg'
      obtain ⟨hst, hrest⟩ := hg'
      have hst' : staleTimer s e = false := by
        cases hxx : staleTimer s e
        · rfl
        · rw [hxx] at hst; simp at hst
      exact inv_runA es (stepA s e) (inv_stepA h hst') hrest

theorem inv_initA : INVA initA := by
  refine ⟨fun t _ => rfl, fun t tr h => Option.noConfusion h, Or.inl ⟨rfl, rfl, fun t => rfl⟩⟩

theorem inflightA_le_one {s : StA} (h : INVA s) : inflightA s ≤ 1 := by
  obtain ⟨_, _, h3⟩ := h
  rcases h3 with ⟨_, _, ha⟩ | ⟨_, _, ha⟩ | ⟨_, _, t0, hlt, hu0, honly⟩
  · have hz := countP_range_zero (fun t => undone (s.trans t)) s.nextId (fun t _ => ha t)
    unfold inflightA
    rw [hz]
    omega
  · have hz := countP_range_zero (fun t => undone (s.trans t)) s.nextId (fun t _ => ha t)
    unfold inflightA
    rw [hz]
    omega
  · have ho := countP_range_one (fun t => undone (s.trans t)) s.nextId t0 hlt hu0
      (fun t _ htne => honly t htne)
    unfold inflightA
    rw [ho]

theorem lockedB : ∀ (evs : List EvB) (s : StB), s.switching = true → s.loading = 0 →
    (runB s evs).switching = true ∧ (runB s evs).loading = 0
  | [], _, hsw, hld => ⟨hsw, hld⟩
  | e :: es, s, hsw, hld => by
      have hstep : (stepB s e).switching = true ∧ (stepB s e).loading = 0 := by
        cases e with
        | reqSwap =>
            show (updateBgB s).switching = true ∧ (updateBgB s).loading = 0
            unfold updateBgB
            rw [if_pos hsw]
            exact ⟨hsw, hld⟩
        | loadOk =>
            show ((if s.loading = 0 then s
              else { s with loading := s.loading - 1, preloadedSome := false }).switching = true
              ∧ (if s.loading = 0 then s
              else { s with loading := s.loading - 1, preloadedSome := false }).loading = 0)
            rw [if_pos hld]
            exact ⟨hsw, hld⟩
        | loadFail =>
            show ((if s.loading = 0 then s
              else startRefillB { s with loading := s.loading - 1, switching := false }).switching = true
              ∧ (if s.loading = 0 then s
              else startRefillB { s with loading := s.loading - 1, switching := false }).loading = 0)
            rw [if_pos hld]
            exact ⟨hsw, hld⟩
        | refillOk =>
            show ((if s.refillPending = 0 then s
              else { s with refillPending := s.refillPending - 1, preloadedSome := true }).switching = true
              ∧ (if s.refillPending = 0 then s
              else { s with refillPending := s.refillPending - 1, preloadedSome := true }).loading = 0)
            split
            · exact ⟨hsw, hld⟩
            · exact ⟨hsw, hld⟩
        | refillFail =>
            show ((if s.refillPending = 0 then s
              else { s with refillPending := s.refillPending - 1 }).switching = true
              ∧ (if s.refillPending = 0 then s
              else { s with refillPending := s.refillPending - 1 }).loading = 0)
            split
            · exact ⟨hsw, hld⟩
            · exact ⟨hsw, hld⟩
      exact lockedB es (stepB s e) hstep.1 hstep.2

theorem providerLoop_count_le (succ : Nat → Bool) :
    ∀ (fuel i : Nat), (providerLoop succ fuel i).2 ≤ fuel
  | 0, _ => Nat.le_refl 0
  | fuel + 1, i => by
      unfold providerLoop
      split
      · simp
      · simp only []
        show (providerLoop succ fuel (i + 1)).2 + 1 ≤ fuel + 1
        have := providerLoop_count_le succ fuel (i + 1)
        omega

theorem providerLoop_none (succ : Nat → Bool) :
    ∀ (fuel i : Nat), (providerLoop succ fuel i).1 = none →
      ∀ j, j < fuel → succ (i + j) = false
  | 0, _, _, j, hj => absurd hj (Nat.not_lt_zero j)
  | fuel + 1, i, h, j, hj => by
      unfold providerLoop at h
      by_cases hs : succ i = true
      · rw [if_pos hs] at h
        exact Option.noConfusion h
      · rw [if_neg hs] at h
        have h' : (providerLoop succ fuel (i + 1)).1 = none := h
        have hs' : succ i = false := by
          cases hb : succ i
          · rfl
          · exact absurd hb hs
        cases j with
        | zero => rw [Nat.add_zero]; exact hs'
        | succ m =>
            have := providerLoop_none succ fuel (i + 1) h' m (by omega)
            rw [show i + (m + 1) = (i + 1) + m by omega]
            exact this

theorem providerLoop_all_fail (succ : Nat → Bool) :
    ∀ (fuel i : Nat), (∀ j, j < fuel → succ (i + j) = false) →
      providerLoop succ fuel i = (none, fuel)
  | 0, _, _ => rfl
  | fuel + 1, i, h => by
      unfold providerLoop
      have h0 : succ i = false := by
        have := h 0 (by omega)
        rwa [Nat.add_zero] at this
      rw [if_neg (by rw [h0]; exact Bool.false_ne_true)]
      have hrec := providerLoop_all_fail succ fuel (i + 1) (fun j hj => by
        have := h (j + 1) (by omega)
        rwa [show i + (j + 1) = (i + 1) + j by omega] at this)
      simp only []
      rw [hrec]

theorem providerLoop_some (succ : Nat → Bool) :
    ∀ (fuel i m : Nat), (providerLoop succ fuel i).1 = some m →
      succ m = true ∧ i ≤ m ∧ m < i + fuel ∧ (providerLoop succ fuel i).2 = m - i + 1 ∧
        ∀ j, i ≤ j → j < m → succ j = false
  | 0, _, m, h => Option.noConfusion h
  | fuel + 1, i, m, h => by
      unfold providerLoop at h ⊢
      by_cases hs : succ i = true
      · rw [if_pos hs] at h ⊢
        injection h with h'
        subst h'
        refine ⟨hs, Nat.le_refl i, by omega, ?_, ?_⟩
        · show 1 = i - i + 1
          omega
        · intro j hij hji
          exact absurd hji (by omega)
      · rw [if_neg hs] at h ⊢
        have h' : (providerLoop succ fuel (i + 1)).1 = some m := h
        obtain ⟨ha, hb, hc, hd, he⟩ := providerLoop_some succ fuel (i + 1) m h'
        have hs' : succ i = false := by
          cases hb' : succ i
          · rfl
          · exact absurd hb' hs
        refine ⟨ha, by omega, by omega, ?_, ?_⟩
        · show (providerLoop succ fuel (i + 1)).2 + 1 = m - i + 1
          omega
        · intro j hij hjm
          rcases Nat.eq_or_lt_of_le hij with heq | hlt
          · rw [← heq]
            exact hs'
          · exact he j (by omega) hjm

theorem loadNextWithRetry_pos (succ : Nat → Bool) (fb : Bool) (k : Nat) :
    loadNextWithRetry succ fb (some (k + 1)) =
      (match providerLoop succ (k + 1) 0 with
       | (some i, c) => (LoadOutcome.fromProvider i, c)
       | (none, c) =>
           if fb then (LoadOutcome.fromFallback, c + 1) else (LoadOutcome.exhausted, c + 1)) := by
  unfold loadNextWithRetry
  have htries : (max 1 (if k + 1 = 0 then BG_PROVIDERS_length else k + 1)) = k + 1 := by
    rw [if_neg (Nat.succ_ne_zero k)]
    omega
  simp only []
  rw [htries]

theorem luminance_eq_spec (p : Px) : luminance p = luminanceSpec p := rfl

theorem lumSum_eq (data : List Px) : lumSum data = (data.map luminanceSpec).sum := by
  have hgen : ∀ (l : List Px) (a : ℝ),
      l.foldl (fun sum p => sum + luminance p) a = a + (l.map luminanceSpec).sum := by
    intro l
    induction l with
    | nil => intro a; simp
    | cons p rest ih =>
        intro a
        simp only [List.foldl_cons, List.map_cons, List.sum_cons]
        rw [ih, luminance_eq_spec]
        ring
  have h0 := hgen data 0
  unfold lumSum
  rw [h0, zero_add]

theorem analyzeToneCore_eq (size : Nat) (data : List Px) :
    analyzeToneCore size data = classifySpec size data := by
  unfold analyzeToneCore classifySpec avgLuminanceSpec
  rw [lumSum_eq]

theorem FALLBACK_BG_take (now : Nat) :
    (FALLBACK_BG now).data.take 21 = "https://picsum.photos".data := by
  unfold FALLBACK_BG
  have hap : ("https://picsum.photos/1280/1264?random=" ++ toString now).data
      = "https://picsum.photos/1280/1264?random=".data ++ (toString now).data := rfl
  rw [hap, List.take_append_of_le_length (by decide)]
  decide

/-! ## Claims -/

/-- Claim C1, counterexample.  The claim states that for every sequence of
`requestSwap()` calls interleaved with load completions, transition-end
events and safety-net timer firings, no two crossfades are ever in flight
simultaneously.  This concrete interleaving refutes it in variant A: swap 1
starts crossfade 0; a second request queues; crossfade 0's `transitionend`
runs `onDone`, which relaunches the queued swap as crossfade 1; then
crossfade 0's still-pending 700 ms safety timer fires, and since `switching`
is true again its `if(switching)` guard re-runs the stale `onDone`, clearing
`switching` in the middle of crossfade 1; the next request then starts
crossfade 2 while crossfade 1 is still in flight — two crossfades at once. -/
theorem c1_counterexample :
    inflightA (runA initA
      [EvA.reqSwap, EvA.loadOk, EvA.reqSwap, EvA.animEnd 0, EvA.loadOk,
       EvA.timerFire 0, EvA.reqSwap, EvA.loadOk]) = 2 := by
  decide

/-- Claim C1 (amended).  While `switching` is true, a further `requestSwap()`
(`updateBg`) only sets `queued` and never starts a crossfade; and along any
event sequence in which no stale safety-net timer fires (no timer of a
crossfade whose `onDone` has already run fires while `switching` is true),
at most one crossfade is in flight at any time. -/
theorem c1_amended (evs : List EvA) (hg : GoodRun initA evs = true) :
    inflightA (runA initA evs) ≤ 1 ∧
      ∀ (s : StA), s.switching = true → stepA s EvA.reqSwap = { s with queued := true } := by
  refine ⟨inflightA_le_one (inv_runA evs initA inv_initA hg), ?_⟩
  intro s hs
  show updateBg s = { s with queued := true }
  unfold updateBg
  rw [if_pos hs]

/-- Witness for the amended claim C1 at a concrete good event sequence. -/
theorem c1_amended_witness :
    GoodRun initA [EvA.reqSwap, EvA.loadOk, EvA.timerFire 0] = true
    ∧ (inflightA (runA initA [EvA.reqSwap, EvA.loadOk, EvA.timerFire 0]) ≤ 1
       ∧ ∀ (s : StA), s.switching = true →
          stepA s EvA.reqSwap = { s with queued := true }) :=
  ⟨by decide, c1_amended [EvA.reqSwap, EvA.loadOk, EvA.timerFire 0] (by decide)⟩

/-- Claim C2.  The claim states that every swap entering Switching with a
successful load returns to Idle via the transition-completion event or the
700–800 ms safety-net timer.  In variant B this fails: `crossfadeTo` returns
at its `!bgPrimary || !bgBuffer` guard (the buffers are never initialized,
the `ensureBgBuffers()` call being commented out), so after the very first
swap that obtains a successful result — here one taken from the preload
cache — neither a `transitionend` listener nor the safety timer is armed and
`switching` remains true forever, whatever events follow. -/
theorem c2_variantB_stuck (evs : List EvB) :
    (runB (stepB { initB with preloadedSome := true } EvB.reqSwap) evs).switching = true := by
  have h0 : (stepB { initB with preloadedSome := true } EvB.reqSwap).switching = true
      ∧ (stepB { initB with preloadedSome := true } EvB.reqSwap).loading = 0 := by decide
  exact (lockedB evs _ h0.1 h0.2).1

/-- Claim C3.  If `requestSwap()` (`updateBg`) is called any number N ≥ 1 of
times while a transition is in flight (`switching` true), the state after
the N calls equals the state after one call (`queued` is set idempotently,
the N−1 excess requests are dropped silently), and the completion of the
current transition (here its safety timer) then executes exactly one
additional swap: the guard-passing counter rises by exactly one and
`queued` is consumed. -/
theorem c3_coalesce (s : StA) (n t : Nat) (tr : TrSt)
    (hsw : s.switching = true) (ht : s.trans t = some tr) (hton : tr.timerOn = true) :
    ((fun x => stepA x EvA.reqSwap)^[n + 1] s = { s with queued := true })
    ∧ (stepA ((fun x => stepA x EvA.reqSwap)^[n + 1] s) (EvA.timerFire t)).swapBegins
        = s.swapBegins + 1
    ∧ (stepA ((fun x => stepA x EvA.reqSwap)^[n + 1] s) (EvA.timerFire t)).queued = false := by
  have hbusy : ∀ (x : StA), x.switching = true →
      stepA x EvA.reqSwap = { x with queued := true } := by
    intro x hx
    show updateBg x = { x with queued := true }
    unfold updateBg
    rw [if_pos hx]
  have hiter : (fun x => stepA x EvA.reqSwap)^[n + 1] s = { s with queued := true } := by
    induction n with
    | zero =>
        show stepA s EvA.reqSwap = { s with queued := true }
        exact hbusy s hsw
    | succ m ih =>
        rw [Function.iterate_succ_apply', ih,
          hbusy { s with queued := true } (show ({ s with queued := true }).switching = true from hsw)]
  refine ⟨hiter, ?_, ?_⟩
  · rw [hiter, stepA_timerFire_some (show ({ s with queued := true }).trans t = some tr from ht)]
    by_cases hp : s.preloadedSome = true <;>
      simp [hsw, hton, hp, onDone, markDone, updateBg, startRefill, startCrossfade]
  · rw [hiter, stepA_timerFire_some (show ({ s with queued := true }).trans t = some tr from ht)]
    by_cases hp : s.preloadedSome = true <;>
      simp [hsw, hton, hp, onDone, markDone, updateBg, startRefill, startCrossfade]

/-- Witness for claim C3 at a concrete in-flight state (one crossfade
started, three busy requests, then the safety timer). -/
theorem c3_coalesce_witness :
    (runA initA [EvA.reqSwap, EvA.loadOk]).switching = true
    ∧ (runA initA [EvA.reqSwap, EvA.loadOk]).trans 0 = some ⟨true, true, false, false⟩
    ∧ (⟨true, true, false, false⟩ : TrSt).timerOn = true
    ∧ (((fun x => stepA x EvA.reqSwap)^[2 + 1] (runA initA [EvA.reqSwap, EvA.loadOk])
          = { runA initA [EvA.reqSwap, EvA.loadOk] with queued := true })
       ∧ (stepA ((fun x => stepA x EvA.reqSwap)^[2 + 1] (runA initA [EvA.reqSwap, EvA.loadOk]))
            (EvA.timerFire 0)).swapBegins = (runA initA [EvA.reqSwap, EvA.loadOk]).swapBegins + 1
       ∧ (stepA ((fun x => stepA x EvA.reqSwap)^[2 + 1] (runA initA [EvA.reqSwap, EvA.loadOk]))
            (EvA.timerFire 0)).queued = false) :=
  ⟨by decide, by decide, by decide,
   c3_coalesce (runA initA [EvA.reqSwap, EvA.loadOk]) 2 0 ⟨true, true, false, false⟩
     (by decide) (by decide) (by decide)⟩

/-- Claim C4.  For every k ≥ 1 (written k+1 below), `loadNextWithRetry`
terminates with at most (k+1)+1 total load attempts: at most k+1 provider
attempts short-circuiting on the first success, then exactly one additional
fallback attempt when the budget is exhausted; it signals failure
(`AllProvidersExhausted`) exactly when all provider attempts fail and the
fallback attempt also fails; on a provider success at index i, exactly i+1
attempts were made and all earlier attempts failed. -/
theorem c4_retry_bound (k : Nat) (succ : Nat → Bool) (fb : Bool) :
    (loadNextWithRetry succ fb (some (k + 1))).2 ≤ (k + 1) + 1
    ∧ ((loadNextWithRetry succ fb (some (k + 1))).1 = LoadOutcome.exhausted ↔
        (fb = false ∧ ∀ i, i < k + 1 → succ i = false))
    ∧ ((∀ i, i < k + 1 → succ i = false) →
        (loadNextWithRetry succ fb (some (k + 1))).2 = (k + 1) + 1)
    ∧ (∀ i, (loadNextWithRetry succ fb (some (k + 1))).1 = LoadOutcome.fromProvider i →
        succ i = true ∧ i < k + 1 ∧ (loadNextWithRetry succ fb (some (k + 1))).2 = i + 1 ∧
          ∀ j, j < i → succ j = false) := by
  rw [loadNextWithRetry_pos]
  rcases hpl : providerLoop succ (k + 1) 0 with ⟨o, c⟩
  have hcle : c ≤ k + 1 := by
    have := providerLoop_count_le succ (k + 1) 0
    rw [hpl] at this
    exact this
  cases o with
  | some i =>
      obtain ⟨ha, _, hc, hd, he⟩ := providerLoop_some succ (k + 1) 0 i (by rw [hpl])
      have hceq : c = i + 1 := by
        rw [hpl] at hd
        simpa using hd
      refine ⟨?_, ?_, ?_, ?_⟩
      · show c ≤ (k + 1) + 1
        omega
      · constructor
        · intro h
          exact LoadOutcome.noConfusion h
        · rintro ⟨_, hallf⟩
          have hfi := hallf i (by omega)
          rw [ha] at hfi
          exact absurd hfi (by simp)
      · intro hallf
        have hfi := hallf i (by omega)
        rw [ha] at hfi
        exact absurd hfi (by simp)
      · intro i' hi'
        have hii : i = i' := by
          have hx : LoadOutcome.fromProvider i = LoadOutcome.fromProvider i' := hi'
          injection hx
        subst hii
        refine ⟨ha, by omega, ?_, ?_⟩
        · show c = i + 1
          exact hceq
        · intro j hj
          exact he j (Nat.zero_le j) hj
  | none =>
      have hnone : ∀ j, j < k + 1 → succ j = false := by
        have hpn := providerLoop_none succ (k + 1) 0 (by rw [hpl])
        intro j hj
        have h0 := hpn j hj
        rwa [Nat.zero_add] at h0
      have hcexact : c = k + 1 := by
        have haf := providerLoop_all_fail succ (k + 1) 0 (fun j hj => by
          rw [Nat.zero_add]; exact hnone j hj)
        rw [hpl] at haf
        injection haf with h1 h2
      by_cases hfb : fb = true
      · rw [hfb]
        refine ⟨?_, ?_, ?_, ?_⟩
        · show c + 1 ≤ (k + 1) + 1
          omega
        · constructor
          · intro h
            exact LoadOutcome.noConfusion h
          · rintro ⟨hfbf, _⟩
            exact absurd hfbf (by simp)
        · intro _
          show c + 1 = (k + 1) + 1
          omega
        · intro i hi
          exact LoadOutcome.noConfusion hi
      · have hfbf : fb = false := by
          cases hb : fb
          · rfl
          · exact absurd hb hfb
        rw [hfbf]
        refine ⟨?_, ?_, ?_, ?_⟩
        · show c + 1 ≤ (k + 1) + 1
          omega
        · constructor
          · intro _
            exact ⟨rfl, hnone⟩
          · intro _
            rfl
        · intro _
          show c + 1 = (k + 1) + 1
          omega
        · intro i hi
          exact LoadOutcome.noConfusion hi

/-- Witness for claim C4 at k = 2 provider tries, all attempts failing. -/
theorem c4_retry_bound_witness :
    (loadNextWithRetry (fun _ => false) false (some (1 + 1))).2 ≤ (1 + 1) + 1
    ∧ ((loadNextWithRetry (fun _ => false) false (some (1 + 1))).1 = LoadOutcome.exhausted ↔
        (false = false ∧ ∀ i, i < 1 + 1 → (fun _ => false) i = false))
    ∧ ((∀ i, i < 1 + 1 → (fun _ => false) i = false) →
        (loadNextWithRetry (fun _ => false) false (some (1 + 1))).2 = (1 + 1) + 1)
    ∧ (∀ i, (loadNextWithRetry (fun _ => false) false (some (1 + 1))).1
          = LoadOutcome.fromProvider i →
        (fun _ => false) i = true ∧ i < 1 + 1 ∧
          (loadNextWithRetry (fun _ => false) false (some (1 + 1))).2 = i + 1 ∧
          ∀ j, j < i → (fun _ => false) j = false) :=
  c4_retry_bound 1 (fun _ => false) false

/-- Claim C5.  When all providers and the fallback attempt fail during
`updateBg`: in variant A the catch block starts no crossfade (`nextId`
stays 0), displays the fallback image immediately on the visible layer
without animation (`fallbackShows` becomes 1), returns the coordinator to
Idle (`switching` false, `loading` 0), schedules one asynchronous preload
refill, and the next request proceeds normally (the guard-passing counter
rises to 2); the step function is total, so no exception reaches the
caller.  In variant B, however, the same catch block never displays the
fallback (`fallbackShows` stays 0) because `bgPrimary` is null — refuting
the displayed-fallback part of the claim for that variant. -/
theorem c5_exhaustion_path :
    (stepA (runA initA [EvA.reqSwap]) EvA.loadFail).switching = false
    ∧ (stepA (runA initA [EvA.reqSwap]) EvA.loadFail).fallbackShows = 1
    ∧ (stepA (runA initA [EvA.reqSwap]) EvA.loadFail).refillPending = 1
    ∧ (stepA (runA initA [EvA.reqSwap]) EvA.loadFail).nextId = 0
    ∧ (stepA (runA initA [EvA.reqSwap]) EvA.loadFail).loading = 0
    ∧ (stepA (stepA (runA initA [EvA.reqSwap]) EvA.loadFail) EvA.reqSwap).swapBegins = 2
    ∧ (stepB (runB initB [EvB.reqSwap]) EvB.loadFail).switching = false
    ∧ (stepB (runB initB [EvB.reqSwap]) EvB.loadFail).fallbackShows = 0
    ∧ (stepB (runB initB [EvB.reqSwap]) EvB.loadFail).refillPending = 1 := by
  decide

/-- Claim C6.  For every fixed sampled bitmap and grid size, `analyzeTone`
(both variants, modelled as a pure function and hence deterministic) equals
the classification written from the spec's words: per-channel sRGB
piecewise linearization (`v/12.92` at or below 0.04045, else
`((v+0.055)/1.055)^2.4`), BT.709 weighted luminance
`0.2126·R + 0.7152·G + 0.0722·B`, average over the grid, `light` exactly
when the average exceeds 0.6 and `dark` otherwise; a sampling failure
yields `none`. -/
theorem c6_tone_formula (mob : Bool) (data : List Px) :
    analyzeToneA true data = some (classifySpec 32 data)
    ∧ analyzeToneB mob true data = some (classifySpec (gridSizeB mob) data)
    ∧ analyzeToneA false data = none
    ∧ analyzeToneB mob false data = none := by
  refine ⟨?_, ?_, rfl, rfl⟩
  · show some (analyzeToneCore 32 data) = some (classifySpec 32 data)
    rw [analyzeToneCore_eq]
  · show some (analyzeToneCore (gridSizeB mob) data) = some (classifySpec (gridSizeB mob) data)
    rw [analyzeToneCore_eq]

/-- Claim C7, counterexample.  The claim states that when tone analysis
fails, the previously applied ToneClass is retained.  In the code the swap
path calls `applyTone(tone||'dark')`, so after a previous `light`
application a failed analysis (`none`) applies `dark`: the displayed
classification is not retained. -/
theorem c7_counterexample :
    (crossfadeToneA none (applyToneA (some "light") emptyDom)).imgToneAttr = some "dark"
    ∧ (applyToneA (some "light") emptyDom).imgToneAttr = some "light"
    ∧ ¬ ((crossfadeToneA none (applyToneA (some "light") emptyDom)).imgToneAttr
          = (applyToneA (some "light") emptyDom).imgToneAttr) := by
  refine ⟨rfl, rfl, ?_⟩
  decide

/-- Claim C7 (amended).  When tone analysis fails during a swap, the swap
applies the default `dark` classification (`tone||'dark'`) instead of
retaining the previous one, in both variants; retention happens only inside
`applyTone` itself when it is handed an empty tone, which the swap path
never does — and the tone step always returns, so the swap still
completes. -/
theorem c7_amended (d : Dom) :
    crossfadeToneA none d = applyToneA (some "dark") d
    ∧ applyToneA none d = d
    ∧ crossfadeToneB none d = applyToneB "dark" d :=
  ⟨rfl, rfl, rfl⟩

/-- Claim C8.  When every provider attempt fails, the budget-exhausted final
attempt of `loadNextWithRetry` targets `FALLBACK_BG` — but `FALLBACK_BG` is
`'https://picsum.photos/1280/1264?random=' + Date.now()`, an external
https URL on the picsum provider host, not a bundled local asset path
(its first 21 characters are `https://picsum.photos`), although the code
comments call it a local fallback. -/
theorem c8_fallback_url (k now : Nat) :
    (loadNextWithRetry (fun _ => false) true (some (k + 1))).1 = LoadOutcome.fromFallback
    ∧ (loadNextWithRetry (fun _ => false) false (some (k + 1))).1 = LoadOutcome.exhausted
    ∧ exhaustedAttemptUrl now = FALLBACK_BG now
    ∧ startsWithPicsum (FALLBACK_BG now) = true := by
  have hall : providerLoop (fun _ => false) (k + 1) 0 = (none, k + 1) :=
    providerLoop_all_fail (fun _ => false) (k + 1) 0 (fun _ _ => rfl)
  refine ⟨?_, ?_, rfl, ?_⟩
  · rw [loadNextWithRetry_pos, hall]
    rfl
  · rw [loadNextWithRetry_pos, hall]
    rfl
  · show decide ((FALLBACK_BG now).data.take 21 = "https://picsum.photos".data) = true
    rw [decide_eq_true_eq]
    exact FALLBACK_BG_take now

/-- Claim C9.  The claim states that `applyBgBlur` clamps to a device-class
maximum (6 px on mobile, 10 px on tablet).  The effective `applyBgBlur`
(variant A's only definition, and in variant B the later declaration that
shadows the clamped one under JS function-declaration hoisting) clamps only
to at least 0: with input 20 on a mobile device it applies and persists 20,
while the shadowed clamped definition would have produced 6 (and 10 on
tablet). -/
theorem c9_blur_effective :
    (applyBgBlurEffective 20 emptyDom).doveBgBlur = some "20"
    ∧ (applyBgBlurEffective 20 emptyDom).bgBlur = some "20px"
    ∧ (applyBgBlurClamped DeviceClass.mobile 20 emptyDom).doveBgBlur = some "6"
    ∧ (applyBgBlurClamped DeviceClass.tablet 20 emptyDom).doveBgBlur = some "10"
    ∧ ∀ px : Int, (applyBgBlurEffective px emptyDom).doveBgBlur = some (toString (max 0 px)) := by
  refine ⟨by decide, by decide, by decide, by decide, fun px => rfl⟩

/-- Claim C10.  In variant B, every tone application during a swap writes
`'light'` or `'dark'` into the localStorage key `dove-theme` — the same key
the manual theme toggle `setTheme` persists to, so an automatic rotation
overwrites the persisted manual selection — and toggles document-element
classes (the applied tone class is added to `documentElement.classList`)
while leaving the overlay-intensity CSS variables untouched; variant A's
`applyTone`, by contrast, never writes `dove-theme`. -/
theorem c10_theme_overwrite (d : Dom) (analysis : Option Tone) (manual : String) :
    (crossfadeToneB analysis d).doveTheme = some (toneOrDark analysis)
    ∧ (toneOrDark analysis = "light" ∨ toneOrDark analysis = "dark")
    ∧ (setThemeB manual d).doveTheme = some manual
    ∧ (crossfadeToneB analysis (setThemeB manual d)).doveTheme = some (toneOrDark analysis)
    ∧ (crossfadeToneB analysis d).bgOverlay = d.bgOverlay
    ∧ (crossfadeToneB analysis d).bgOverlayLight = d.bgOverlayLight
    ∧ toneOrDark analysis ∈ (crossfadeToneB analysis d).docClasses
    ∧ (crossfadeToneA analysis d).doveTheme = d.doveTheme := by
  refine ⟨rfl, ?_, rfl, rfl, rfl, rfl, ?_, ?_⟩
  · rcases analysis with _ | t
    · exact Or.inr rfl
    · cases t
      · exact Or.inl rfl
      · exact Or.inr rfl
  · show toneOrDark analysis ∈ stripToneClasses d.docClasses ++ [toneOrDark analysis]
    exact List.mem_append_right _ (List.mem_singleton.mpr rfl)
  · rfl

end Dove
